import Mathlib

/-!
Verification of the osc-data-processing repository's statistics computation
engine (`create_index.py`) and index query engine (`index.py`).

Shallow embedding conventions:
* Python/numpy floats are modelled as exact rationals (`ℚ`).  All the
  quantities the code manipulates (areas, bbox coordinates, sums, means,
  variances) are rational-valued when the inputs are rational; only the
  final square root taken by `numpy.std` leaves `ℚ`, and it is represented
  exactly by the `SqrtVal` wrapper below.
* Python `max(xs)` / `min(xs)` / `max(xs, key=f)` / `min(xs, key=f)` are
  modelled by `pymax`, `pymin`, `pymaxKey`, `pyminKey`: a left fold that
  replaces the current best only when the new element is strictly better,
  which is exactly CPython's behaviour (ties keep the earlier element).
  Python raises `ValueError` on an empty iterable; the callers in
  `create_index_row` are modelled with `Option` at those raise points and
  the fold functions themselves return `default` on `[]` (never reached
  from `create_index_row`).
* numpy reductions (`.sum()`, `.min()`, `.mean()`, `.max()`, `.std()`) on a
  nonempty 1-d array agree with the corresponding exact fold; numpy raises
  on `.min()`/`.max()` of an empty array, which is one of the `Option`
  raise points.
-/

namespace OSC

/--
Exact representation of the value `Real.sqrt sq` for a nonnegative radicand
`sq`.  `numpy.std` returns the square root of the population variance; since
every radicand produced by the code is a variance (hence nonnegative) and
`Real.sqrt` is strictly monotone on nonnegatives, comparing two `SqrtVal`s by
their radicands agrees with comparing the real square roots, and
`⟨0⟩` represents the number `0` (= `√0`).
-/
structure SqrtVal where
  sq : ℚ
deriving DecidableEq, Inhabited

theorem SqrtVal.sq_injective : Function.Injective SqrtVal.sq := by
  intro a b h
  cases a
  cases b
  simpa using h

instance : LinearOrder SqrtVal :=
  LinearOrder.lift' SqrtVal.sq SqrtVal.sq_injective

/-- `a ≤ b` on `SqrtVal` is comparison of radicands. -/
theorem SqrtVal.le_def (a b : SqrtVal) : a ≤ b ↔ a.sq ≤ b.sq := Iff.rfl

/-- `a < b` on `SqrtVal` is comparison of radicands. -/
theorem SqrtVal.lt_def (a b : SqrtVal) : a < b ↔ a.sq < b.sq := lt_iff_lt_of_le_iff_le (Iff.rfl)

/-!
## Python `max`/`min` with and without `key`

CPython's `max(iterable, key=f)` scans left to right keeping the current
best and replacing it only when the new element's key is strictly greater,
so it returns the first element attaining the maximal key; `min` is dual.
`pymaxKeyAux f b l` is the state of that loop after seeding it with `b`.
-/

def pymaxKeyAux {α β : Type} [LinearOrder β] (f : α → β) (b : α) : List α → α
  | [] => b
  | c :: r => pymaxKeyAux f (if f b < f c then c else b) r

def pyminKeyAux {α β : Type} [LinearOrder β] (f : α → β) (b : α) : List α → α
  | [] => b
  | c :: r => pyminKeyAux f (if f c < f b then c else b) r

/-- Python `max(xs, key=f)`; `default` stands in for the `ValueError` raised
on an empty iterable (all uses below are guarded by nonemptiness). -/
def pymaxKey {α β : Type} [Inhabited α] [LinearOrder β] (f : α → β) : List α → α
  | [] => default
  | x :: r => pymaxKeyAux f x r

/-- Python `min(xs, key=f)`; `default` stands in for the `ValueError` raised
on an empty iterable. -/
def pyminKey {α β : Type} [Inhabited α] [LinearOrder β] (f : α → β) : List α → α
  | [] => default
  | x :: r => pyminKeyAux f x r

/-- Python `max(xs)` (and numpy `.max()` on a 1-d array): `max` with the
identity key. -/
def pymax {α : Type} [Inhabited α] [LinearOrder α] (xs : List α) : α :=
  pymaxKey id xs

/-- Python `min(xs)` (and numpy `.min()` on a 1-d array): `min` with the
identity key. -/
def pymin {α : Type} [Inhabited α] [LinearOrder α] (xs : List α) : α :=
  pyminKey id xs

/--
`IsFirstMaxBy f xs m` states that `m` is the first element of `xs`, in list
order, attaining the maximal value of `f` over `xs`: `m` occurs in `xs`, its
value bounds every element's value, and every element strictly before that
occurrence has a strictly smaller value.
-/
def IsFirstMaxBy {α β : Type} [LinearOrder β] (f : α → β) (xs : List α) (m : α) : Prop :=
  ∃ pre suf, xs = pre ++ m :: suf ∧ (∀ y ∈ xs, f y ≤ f m) ∧ ∀ y ∈ pre, f y < f m

/-- Dual of `IsFirstMaxBy`: first element attaining the minimal value. -/
def IsFirstMinBy {α β : Type} [LinearOrder β] (f : α → β) (xs : List α) (m : α) : Prop :=
  ∃ pre suf, xs = pre ++ m :: suf ∧ (∀ y ∈ xs, f m ≤ f y) ∧ ∀ y ∈ pre, f m < f y

theorem pymaxKeyAux_isFirstMaxBy {α β : Type} [LinearOrder β] (f : α → β) :
    ∀ (l : List α) (b : α), IsFirstMaxBy f (b :: l) (pymaxKeyAux f b l) := by
  intro l
  induction l with
  | nil =>
    intro b
    exact ⟨[], [], rfl, by simp [pymaxKeyAux], by simp⟩
  | cons c r ih =>
    intro b
    rw [pymaxKeyAux]
    by_cases h : f b < f c
    · rw [if_pos h]
      obtain ⟨pre, suf, heq, hub, hlt⟩ := ih c
      have hcm : f c ≤ f (pymaxKeyAux f c r) := hub c (by simp)
      refine ⟨b :: pre, suf, by simpa using heq, ?_, ?_⟩
      · intro y hy
        rcases List.mem_cons.1 hy with hy | hy
        · subst hy
          exact le_of_lt (lt_of_lt_of_le h hcm)
        · exact hub y hy
      · intro y hy
        rcases List.mem_cons.1 hy with hy | hy
        · subst hy
          exact lt_of_lt_of_le h hcm
        · exact hlt y hy
    · rw [if_neg h]
      have hcb : f c ≤ f b := not_lt.1 h
      obtain ⟨pre, suf, heq, hub, hlt⟩ := ih b
      have hbm : f b ≤ f (pymaxKeyAux f b r) := hub b (by simp)
      cases pre with
      | nil =>
        simp only [List.nil_append] at heq
        injection heq with hb hr
        refine ⟨[], c :: suf, by simp [← hb, ← hr], ?_, by simp⟩
        intro y hy
        rcases List.mem_cons.1 hy with hy | hy
        · subst hy
          exact hbm
        rcases List.mem_cons.1 hy with hy | hy
        · subst hy
          exact le_trans hcb hbm
        · exact hub y (List.mem_cons_of_mem _ hy)
      | cons p pre' =>
        simp only [List.cons_append] at heq
        injection heq with hp hr
        have hbp : f b < f (pymaxKeyAux f b r) := by
          have := hlt p (by simp)
          rwa [← hp] at this
        refine ⟨b :: c :: pre', suf, by rw [List.cons_append, List.cons_append, ← hr], ?_, ?_⟩
        · intro y hy
          rcases List.mem_cons.1 hy with hy | hy
          · subst hy
            exact hbm
          rcases List.mem_cons.1 hy with hy | hy
          · subst hy
            exact le_trans hcb hbm
          · exact hub y (List.mem_cons_of_mem _ hy)
        · intro y hy
          rcases List.mem_cons.1 hy with hy | hy
          · subst hy
            exact hbp
          rcases List.mem_cons.1 hy with hy | hy
          · subst hy
            exact lt_of_le_of_lt hcb hbp
          · exact hlt y (List.mem_cons_of_mem _ hy)

theorem pyminKeyAux_isFirstMinBy {α β : Type} [LinearOrder β] (f : α → β) :
    ∀ (l : List α) (b : α), IsFirstMinBy f (b :: l) (pyminKeyAux f b l) := by
  intro l
  induction l with
  | nil =>
    intro b
    exact ⟨[], [], rfl, by simp [pyminKeyAux], by simp⟩
  | cons c r ih =>
    intro b
    rw [pyminKeyAux]
    by_cases h : f c < f b
    · rw [if_pos h]
      obtain ⟨pre, suf, heq, hub, hlt⟩ := ih c
      have hcm : f (pyminKeyAux f c r) ≤ f c := hub c (by simp)
      refine ⟨b :: pre, suf, by simpa using heq, ?_, ?_⟩
      · intro y hy
        rcases List.mem_cons.1 hy with hy | hy
        · subst hy
          exact le_of_lt (lt_of_le_of_lt hcm h)
        · exact hub y hy
      · intro y hy
        rcases List.mem_cons.1 hy with hy | hy
        · subst hy
          exact lt_of_le_of_lt hcm h
        · exact hlt y hy
    · rw [if_neg h]
      have hcb : f b ≤ f c := not_lt.1 h
      obtain ⟨pre, suf, heq, hub, hlt⟩ := ih b
      have hbm : f (pyminKeyAux f b r) ≤ f b := hub b (by simp)
      cases pre with
      | nil =>
        simp only [List.nil_append] at heq
        injection heq with hb hr
        refine ⟨[], c :: suf, by simp [← hb, ← hr], ?_, by simp⟩
        intro y hy
        rcases List.mem_cons.1 hy with hy | hy
        · subst hy
          exact hbm
        rcases List.mem_cons.1 hy with hy | hy
        · subst hy
          exact le_trans hbm hcb
        · exact hub y (List.mem_cons_of_mem _ hy)
      | cons p pre' =>
        simp only [List.cons_append] at heq
        injection heq with hp hr
        have hbp : f (pyminKeyAux f b r) < f b := by
          have := hlt p (by simp)
          rwa [← hp] at this
        refine ⟨b :: c :: pre', suf, by rw [List.cons_append, List.cons_append, ← hr], ?_, ?_⟩
        · intro y hy
          rcases List.mem_cons.1 hy with hy | hy
          · subst hy
            exact hbm
          rcases List.mem_cons.1 hy with hy | hy
          · subst hy
            exact le_trans hbm hcb
          · exact hub y (List.mem_cons_of_mem _ hy)
        · intro y hy
          rcases List.mem_cons.1 hy with hy | hy
          · subst hy
            exact hbp
          rcases List.mem_cons.1 hy with hy | hy
          · subst hy
            exact lt_of_lt_of_le hbp hcb
          · exact hlt y (List.mem_cons_of_mem _ hy)

theorem pymaxKey_isFirstMaxBy {α β : Type} [Inhabited α] [LinearOrder β] (f : α → β)
    {xs : List α} (hne : xs ≠ []) : IsFirstMaxBy f xs (pymaxKey f xs) := by
  cases xs with
  | nil => exact absurd rfl hne
  | cons x r => exact pymaxKeyAux_isFirstMaxBy f r x

theorem pyminKey_isFirstMinBy {α β : Type} [Inhabited α] [LinearOrder β] (f : α → β)
    {xs : List α} (hne : xs ≠ []) : IsFirstMinBy f xs (pyminKey f xs) := by
  cases xs with
  | nil => exact absurd rfl hne
  | cons x r => exact pyminKeyAux_isFirstMinBy f r x

theorem isFirstMaxBy_mem {α β : Type} [LinearOrder β] {f : α → β} {xs : List α} {m : α}
    (h : IsFirstMaxBy f xs m) : m ∈ xs := by
  obtain ⟨pre, suf, heq, -, -⟩ := h
  rw [heq]
  simp

theorem isFirstMinBy_mem {α β : Type} [LinearOrder β] {f : α → β} {xs : List α} {m : α}
    (h : IsFirstMinBy f xs m) : m ∈ xs := by
  obtain ⟨pre, suf, heq, -, -⟩ := h
  rw [heq]
  simp

theorem isFirstMaxBy_le {α β : Type} [LinearOrder β] {f : α → β} {xs : List α} {m : α}
    (h : IsFirstMaxBy f xs m) : ∀ y ∈ xs, f y ≤ f m := by
  obtain ⟨-, -, -, hub, -⟩ := h
  exact hub

theorem isFirstMinBy_le {α β : Type} [LinearOrder β] {f : α → β} {xs : List α} {m : α}
    (h : IsFirstMinBy f xs m) : ∀ y ∈ xs, f m ≤ f y := by
  obtain ⟨-, -, -, hub, -⟩ := h
  exact hub

theorem pymaxKeyAux_map {α β : Type} [LinearOrder β] (f : α → β) :
    ∀ (l : List α) (b : α), pymaxKeyAux id (f b) (l.map f) = f (pymaxKeyAux f b l) := by
  intro l
  induction l with
  | nil => intro b; rfl
  | cons c r ih =>
    intro b
    rw [List.map_cons, pymaxKeyAux, pymaxKeyAux]
    have : (if id (f b) < id (f c) then f c else f b) = f (if f b < f c then c else b) := by
      by_cases h : f b < f c <;> simp [h]
    rw [this, ih]

theorem pyminKeyAux_map {α β : Type} [LinearOrder β] (f : α → β) :
    ∀ (l : List α) (b : α), pyminKeyAux id (f b) (l.map f) = f (pyminKeyAux f b l) := by
  intro l
  induction l with
  | nil => intro b; rfl
  | cons c r ih =>
    intro b
    rw [List.map_cons, pyminKeyAux, pyminKeyAux]
    have : (if id (f c) < id (f b) then f c else f b) = f (if f c < f b then c else b) := by
      by_cases h : f c < f b <;> simp [h]
    rw [this, ih]

/-- Python `max` of the mapped values is the key evaluated at Python
`max(..., key=f)`: the value and the attribution are consistent. -/
theorem pymax_map {α β : Type} [Inhabited α] [Inhabited β] [LinearOrder β] (f : α → β)
    {xs : List α} (hne : xs ≠ []) : pymax (xs.map f) = f (pymaxKey f xs) := by
  cases xs with
  | nil => exact absurd rfl hne
  | cons x r => exact pymaxKeyAux_map f r x

/-- Python `min` of the mapped values is the key evaluated at Python
`min(..., key=f)`. -/
theorem pymin_map {α β : Type} [Inhabited α] [Inhabited β] [LinearOrder β] (f : α → β)
    {xs : List α} (hne : xs ≠ []) : pymin (xs.map f) = f (pyminKey f xs) := by
  cases xs with
  | nil => exact absurd rfl hne
  | cons x r => exact pyminKeyAux_map f r x

theorem pymin_le_pymax {α : Type} [Inhabited α] [LinearOrder α] {xs : List α} (hne : xs ≠ []) :
    pymin xs ≤ pymax xs := by
  have hmax := pymaxKey_isFirstMaxBy (id : α → α) hne
  have hmin := pyminKey_isFirstMinBy (id : α → α) hne
  exact isFirstMaxBy_le hmax _ (isFirstMinBy_mem hmin)

/-!
## Data model (`annotations.py` canonical shape)

A COCO-style instance annotation as consumed by `create_index_row`:
`{'category_id': int, 'area': float, 'bbox': [x, y, w, h], 'iscrowd': ...}`.
The bbox is stored componentwise; `bboxes[:, 0]` is the list of `x`
components and `bboxes[:, 1]` the list of `y` components.
-/

structure Annotation where
  category_id : ℤ
  area : ℚ
  bbox_x : ℚ
  bbox_y : ℚ
  bbox_w : ℚ
  bbox_h : ℚ
  is_crowd : Bool := false
deriving DecidableEq, Inhabited

/-- A category record `{'id': ..., 'name': ...}`. -/
structure Category where
  id : ℤ
  name : String
deriving DecidableEq, Inhabited

/-!
## numpy statistics on a 1-d array of rationals

`npSum` is `.sum()`, `npMean` is `.mean()` (division by zero on the empty
array would give numpy NaN; in `ℚ` it gives the junk value `0`, and every
use in the code is guarded so the empty case is never observable),
`npVar` is the population variance `mean((x - mean(x))**2)` and `npStd`
(`.std()`) is its square root, kept exact as a `SqrtVal`.
-/

def npSum (xs : List ℚ) : ℚ := xs.sum

def npMean (xs : List ℚ) : ℚ := xs.sum / (xs.length : ℚ)

def npVar (xs : List ℚ) : ℚ := npMean (xs.map (fun x => (x - npMean xs) ^ 2))

def npStd (xs : List ℚ) : SqrtVal := ⟨npVar xs⟩

/-!
## `create_index.py`: `create_index_row`
-/

/-- `annotations_by_cid[cid]`: the image's annotations grouped by
`category_id` (a `defaultdict`, so an unseen id yields `[]`); grouping by
filtering preserves the original order within each group, as the Python
loop does. -/
def annotations_by_cid (anns : List Annotation) (cid : ℤ) : List Annotation :=
  anns.filter (fun a => a.category_id = cid)

/-- `areas_by_cid[cid]`: the areas of the annotations of one category. -/
def areas_by_cid (anns : List Annotation) (cid : ℤ) : List ℚ :=
  (annotations_by_cid anns cid).map (·.area)

/-- `bboxes_by_cid[cid][:, 0]`: x components of one category's bboxes. -/
def bbox_xs_by_cid (anns : List Annotation) (cid : ℤ) : List ℚ :=
  (annotations_by_cid anns cid).map (·.bbox_x)

/-- `bboxes_by_cid[cid][:, 1]`: y components of one category's bboxes. -/
def bbox_ys_by_cid (anns : List Annotation) (cid : ℤ) : List ℚ :=
  (annotations_by_cid anns cid).map (·.bbox_y)

/-- `[cid for cid in category_ids if len(annotations_by_cid[cid]) > 0]`. -/
def nonempty_category_ids (category_ids : List ℤ) (anns : List Annotation) : List ℤ :=
  category_ids.filter (fun cid => 0 < (annotations_by_cid anns cid).length)

/-- The six per-category statistics scanned by the cross-category extrema:
number of instances of a category. -/
def numInstancesOf (anns : List Annotation) (cid : ℤ) : ℕ :=
  (annotations_by_cid anns cid).length

/-- `areas_by_cid[cid].sum()`. -/
def totalAreaOf (anns : List Annotation) (cid : ℤ) : ℚ := npSum (areas_by_cid anns cid)

/-- `areas_by_cid[cid].min()`. -/
def minAreaOf (anns : List Annotation) (cid : ℤ) : ℚ := pymin (areas_by_cid anns cid)

/-- `areas_by_cid[cid].mean()`. -/
def meanAreaOf (anns : List Annotation) (cid : ℤ) : ℚ := npMean (areas_by_cid anns cid)

/-- `areas_by_cid[cid].max()`. -/
def maxAreaOf (anns : List Annotation) (cid : ℤ) : ℚ := pymax (areas_by_cid anns cid)

/-- `areas_by_cid[cid].std()`. -/
def stdevAreaOf (anns : List Annotation) (cid : ℤ) : SqrtVal := npStd (areas_by_cid anns cid)

/--
The per-category block appended to the row for one `cid ∈ category_ids`:
count, total/min/mean/max/stdev of area, mean/stdev of bbox x and y, each
guarded by `if len(category_annotations) > 0 else 0` exactly as in the
source (an empty category contributes literal zeros, never NaN).
-/
structure CatBlock where
  numInstances : ℕ
  totalArea : ℚ
  minArea : ℚ
  meanArea : ℚ
  maxArea : ℚ
  stdevArea : SqrtVal
  meanX : ℚ
  meanY : ℚ
  stdevX : SqrtVal
  stdevY : SqrtVal
deriving DecidableEq, Inhabited

def cat_block (anns : List Annotation) (cid : ℤ) : CatBlock :=
  let ca := annotations_by_cid anns cid
  { numInstances := ca.length
    totalArea := if 0 < ca.length then npSum (areas_by_cid anns cid) else 0
    minArea := if 0 < ca.length then pymin (areas_by_cid anns cid) else 0
    meanArea := if 0 < ca.length then npMean (areas_by_cid anns cid) else 0
    maxArea := if 0 < ca.length then pymax (areas_by_cid anns cid) else 0
    stdevArea := if 0 < ca.length then npStd (areas_by_cid anns cid) else ⟨0⟩
    meanX := if 0 < ca.length then npMean (bbox_xs_by_cid anns cid) else 0
    meanY := if 0 < ca.length then npMean (bbox_ys_by_cid anns cid) else 0
    stdevX := if 0 < ca.length then npStd (bbox_xs_by_cid anns cid) else ⟨0⟩
    stdevY := if 0 < ca.length then npStd (bbox_ys_by_cid anns cid) else ⟨0⟩ }

/-- The all-zero per-category block (`0` in every one of the ten fields;
the stdev fields hold `⟨0⟩ = √0 = 0`). -/
def zero_cat_block : CatBlock :=
  { numInstances := 0, totalArea := 0, minArea := 0, meanArea := 0, maxArea := 0
    stdevArea := ⟨0⟩, meanX := 0, meanY := 0, stdevX := ⟨0⟩, stdevY := ⟨0⟩ }

/--
`os.path.splitext(filename)[0]` (posix): drop the extension after the last
dot, provided that dot comes after the last `/` and is preceded, within the
basename, by at least one non-dot character (so `.bashrc` keeps its name).
-/
def splitext_base (p : String) : String :=
  let l := p.toList
  let dotIdx : ℤ := match (l.reverse.findIdx? (· = '.')) with
    | none => -1
    | some i => (l.length : ℤ) - 1 - (i : ℤ)
  let sepIdx : ℤ := match (l.reverse.findIdx? (· = '/')) with
    | none => -1
    | some i => (l.length : ℤ) - 1 - (i : ℤ)
  if dotIdx > sepIdx then
    let between := (l.drop (sepIdx + 1).toNat).take (dotIdx - sepIdx - 1).toNat
    if between.any (· ≠ '.') then String.mk (l.take dotIdx.toNat) else p
  else p

/--
The fixed-width record built by `create_index_row` (the Python list `row`
before `sep.join(map(str, row))`; serialization to one delimited text line
is the I/O layer and is not modelled).  Fields appear in the exact order of
the source: global statistics, the six `Highest_*`, the six `Lowest_*`, the
six `CategoryOf_Highest_*`, the six `CategoryOf_Lowest_*`, then one
`CatBlock` per known category id in the order of `category_ids`.
-/
structure IndexRow where
  imageID : String
  numInstances : ℕ
  numCategories : ℕ
  totalArea : ℚ
  minArea : ℚ
  meanArea : ℚ
  maxArea : ℚ
  stdevArea : SqrtVal
  meanX : ℚ
  meanY : ℚ
  stdevX : SqrtVal
  stdevY : SqrtVal
  highest_NumInstances : ℕ
  highest_TotalArea : ℚ
  highest_MinArea : ℚ
  highest_MeanArea : ℚ
  highest_MaxArea : ℚ
  highest_StdevArea : SqrtVal
  lowest_NumInstances : ℕ
  lowest_TotalArea : ℚ
  lowest_MinArea : ℚ
  lowest_MeanArea : ℚ
  lowest_MaxArea : ℚ
  lowest_StdevArea : SqrtVal
  categoryOf_Highest_NumInstances : ℤ
  categoryOf_Highest_TotalArea : ℤ
  categoryOf_Highest_MinArea : ℤ
  categoryOf_Highest_MeanArea : ℤ
  categoryOf_Highest_MaxArea : ℤ
  categoryOf_Highest_StdevArea : ℤ
  categoryOf_Lowest_NumInstances : ℤ
  categoryOf_Lowest_TotalArea : ℤ
  categoryOf_Lowest_MinArea : ℤ
  categoryOf_Lowest_MeanArea : ℤ
  categoryOf_Lowest_MaxArea : ℤ
  categoryOf_Lowest_StdevArea : ℤ
  perCategory : List CatBlock
deriving DecidableEq, Inhabited

/-- The row built by the body of `create_index_row` once the guarded raise
points are passed (total part of the computation). -/
def index_row_core (category_ids : List ℤ) (filename : String)
    (anns : List Annotation) : IndexRow :=
  let areas := anns.map (·.area)
  let xs := anns.map (·.bbox_x)
  let ys := anns.map (·.bbox_y)
  let necids := nonempty_category_ids category_ids anns
  { imageID := splitext_base filename
    numInstances := anns.length
    numCategories := necids.length
    totalArea := npSum areas
    minArea := pymin areas
    meanArea := npMean areas
    maxArea := pymax areas
    stdevArea := npStd areas
    meanX := npMean xs
    meanY := npMean ys
    stdevX := npStd xs
    stdevY := npStd ys
    highest_NumInstances := pymax (necids.map (numInstancesOf anns))
    highest_TotalArea := pymax (necids.map (totalAreaOf anns))
    highest_MinArea := pymax (necids.map (minAreaOf anns))
    highest_MeanArea := pymax (necids.map (meanAreaOf anns))
    highest_MaxArea := pymax (necids.map (maxAreaOf anns))
    highest_StdevArea := pymax (necids.map (stdevAreaOf anns))
    lowest_NumInstances := pymin (necids.map (numInstancesOf anns))
    lowest_TotalArea := pymin (necids.map (totalAreaOf anns))
    lowest_MinArea := pymin (necids.map (minAreaOf anns))
    lowest_MeanArea := pymin (necids.map (meanAreaOf anns))
    lowest_MaxArea := pymin (necids.map (maxAreaOf anns))
    lowest_StdevArea := pymin (necids.map (stdevAreaOf anns))
    categoryOf_Highest_NumInstances := pymaxKey (numInstancesOf anns) necids
    categoryOf_Highest_TotalArea := pymaxKey (totalAreaOf anns) necids
    categoryOf_Highest_MinArea := pymaxKey (minAreaOf anns) necids
    categoryOf_Highest_MeanArea := pymaxKey (meanAreaOf anns) necids
    categoryOf_Highest_MaxArea := pymaxKey (maxAreaOf anns) necids
    categoryOf_Highest_StdevArea := pymaxKey (stdevAreaOf anns) necids
    categoryOf_Lowest_NumInstances := pyminKey (numInstancesOf anns) necids
    categoryOf_Lowest_TotalArea := pyminKey (totalAreaOf anns) necids
    categoryOf_Lowest_MinArea := pyminKey (minAreaOf anns) necids
    categoryOf_Lowest_MeanArea := pyminKey (meanAreaOf anns) necids
    categoryOf_Lowest_MaxArea := pyminKey (maxAreaOf anns) necids
    categoryOf_Lowest_StdevArea := pyminKey (stdevAreaOf anns) necids
    perCategory := category_ids.map (cat_block anns) }

/--
`create_index_row(category_ids, filename, annotations)`.

The two `none` branches are the raise points of the Python code: with an
empty annotation list, `areas.min()` (a numpy reduction over an empty
array) raises `ValueError` before anything is returned; and when no known
category has an instance in this image, the cross-category
`max(... for cid in nonempty_category_ids)` generators are empty and
`max()` raises `ValueError`.  Otherwise the computation is total and
produces `index_row_core`.
-/
def create_index_row (category_ids : List ℤ) (filename : String)
    (anns : List Annotation) : Option IndexRow :=
  if anns = [] then none
  else if nonempty_category_ids category_ids anns = [] then none
  else some (index_row_core category_ids filename anns)

/-- Unfolding of a successful `create_index_row` call: both guards were
passed and the result is `index_row_core`. -/
theorem create_index_row_some {category_ids : List ℤ} {filename : String}
    {anns : List Annotation} {row : IndexRow}
    (h : create_index_row category_ids filename anns = some row) :
    anns ≠ [] ∧ nonempty_category_ids category_ids anns ≠ [] ∧
      row = index_row_core category_ids filename anns := by
  rw [create_index_row] at h
  split_ifs at h with h1 h2
  exact ⟨h1, h2, (Option.some.inj h).symm⟩

/-- If the image has at least one annotation and every annotation's
category id is known, at least one known category is nonempty here. -/
theorem nonempty_category_ids_ne_nil {C : List ℤ} {A : List Annotation} (hA : A ≠ [])
    (hcov : ∀ a ∈ A, a.category_id ∈ C) : nonempty_category_ids C A ≠ [] := by
  obtain ⟨a, A', rfl⟩ := List.exists_cons_of_ne_nil hA
  have hmem : a.category_id ∈ C := hcov a (by simp)
  have hlen : 0 < (annotations_by_cid (a :: A') a.category_id).length := by
    simp [annotations_by_cid, List.filter_cons]
  intro hnil
  have : a.category_id ∈ nonempty_category_ids C (a :: A') :=
    List.mem_filter.2 ⟨hmem, by simpa using hlen⟩
  rw [hnil] at this
  simp at this

theorem create_index_row_isSome {C : List ℤ} {fn : String} {A : List Annotation}
    (hA : A ≠ []) (hcov : ∀ a ∈ A, a.category_id ∈ C) :
    (create_index_row C fn A).isSome = true := by
  rw [create_index_row, if_neg hA, if_neg (nonempty_category_ids_ne_nil hA hcov)]
  rfl

/-- `Σ_{c ∈ C} [x = c]` is the number of occurrences of `x` in `C`. -/
theorem sum_ite_count (x : ℤ) : ∀ C : List ℤ,
    (C.map (fun c => if x = c then (1 : ℕ) else 0)).sum = C.count x := by
  intro C
  induction C with
  | nil => simp
  | cons c C' ih =>
    rw [List.map_cons, List.sum_cons, ih, List.count_cons]
    by_cases hxc : x = c
    · simp [hxc, Nat.add_comm]
    · have hcx : ¬c = x := fun h => hxc h.symm
      simp [hxc, hcx]

/-- With a duplicate-free category list covering every annotation, the
per-category group sizes sum to the total number of annotations. -/
theorem sum_len_by_cid {C : List ℤ} (hnd : C.Nodup) :
    ∀ (A : List Annotation), (∀ a ∈ A, a.category_id ∈ C) →
      (C.map (fun c => (annotations_by_cid A c).length)).sum = A.length := by
  intro A
  induction A with
  | nil =>
    intro _
    simp [annotations_by_cid]
  | cons a A' ih =>
    intro hcov
    have hstep : (fun c => (annotations_by_cid (a :: A') c).length) =
        fun c => (if a.category_id = c then 1 else 0) + (annotations_by_cid A' c).length := by
      funext c
      simp only [annotations_by_cid, List.filter_cons]
      by_cases hac : a.category_id = c <;> simp [hac, Nat.add_comm]
    rw [hstep, List.sum_map_add, sum_ite_count,
      ih (fun b hb => hcov b (List.mem_cons_of_mem _ hb)),
      List.count_eq_one_of_mem hnd (hcov a (by simp))]
    simp [Nat.add_comm]

/--
C1: for a sorted category-id list `C` and a non-empty annotation list whose
category ids all lie in `C`, the produced row has `NumInstances = |A|` and
the per-category `NumInstances_<c>` counts over all `c ∈ C` sum to `|A|`.
-/
theorem claim_C1 {C : List ℤ} {fn : String} {A : List Annotation} {row : IndexRow}
    (hC : List.Sorted (· < ·) C) (_hA : A ≠ [])
    (hcov : ∀ a ∈ A, a.category_id ∈ C)
    (hrow : create_index_row C fn A = some row) :
    row.numInstances = A.length ∧
      (row.perCategory.map (·.numInstances)).sum = A.length := by
  obtain ⟨-, -, rfl⟩ := create_index_row_some hrow
  refine ⟨rfl, ?_⟩
  show ((C.map (cat_block A)).map (·.numInstances)).sum = A.length
  rw [List.map_map]
  exact sum_len_by_cid hC.nodup A hcov

/--
C2: for each of the six per-category statistics, the `CategoryOf_Highest_*`
field is the first category — scanning the nonempty categories in ascending
id order, which is their order in `nonempty_category_ids` since
`category_ids` is sorted — attaining the maximal value of that statistic,
and `CategoryOf_Lowest_*` is the first one attaining the minimal value.
-/
theorem claim_C2 {C : List ℤ} {fn : String} {A : List Annotation} {row : IndexRow}
    (_hC : List.Sorted (· < ·) C) (_hA : A ≠ [])
    (hrow : create_index_row C fn A = some row) :
    IsFirstMaxBy (numInstancesOf A) (nonempty_category_ids C A) row.categoryOf_Highest_NumInstances ∧
    IsFirstMaxBy (totalAreaOf A) (nonempty_category_ids C A) row.categoryOf_Highest_TotalArea ∧
    IsFirstMaxBy (minAreaOf A) (nonempty_category_ids C A) row.categoryOf_Highest_MinArea ∧
    IsFirstMaxBy (meanAreaOf A) (nonempty_category_ids C A) row.categoryOf_Highest_MeanArea ∧
    IsFirstMaxBy (maxAreaOf A) (nonempty_category_ids C A) row.categoryOf_Highest_MaxArea ∧
    IsFirstMaxBy (stdevAreaOf A) (nonempty_category_ids C A) row.categoryOf_Highest_StdevArea ∧
    IsFirstMinBy (numInstancesOf A) (nonempty_category_ids C A) row.categoryOf_Lowest_NumInstances ∧
    IsFirstMinBy (totalAreaOf A) (nonempty_category_ids C A) row.categoryOf_Lowest_TotalArea ∧
    IsFirstMinBy (minAreaOf A) (nonempty_category_ids C A) row.categoryOf_Lowest_MinArea ∧
    IsFirstMinBy (meanAreaOf A) (nonempty_category_ids C A) row.categoryOf_Lowest_MeanArea ∧
    IsFirstMinBy (maxAreaOf A) (nonempty_category_ids C A) row.categoryOf_Lowest_MaxArea ∧
    IsFirstMinBy (stdevAreaOf A) (nonempty_category_ids C A) row.categoryOf_Lowest_StdevArea := by
  obtain ⟨-, hne, rfl⟩ := create_index_row_some hrow
  exact ⟨pymaxKey_isFirstMaxBy _ hne, pymaxKey_isFirstMaxBy _ hne, pymaxKey_isFirstMaxBy _ hne,
    pymaxKey_isFirstMaxBy _ hne, pymaxKey_isFirstMaxBy _ hne, pymaxKey_isFirstMaxBy _ hne,
    pyminKey_isFirstMinBy _ hne, pyminKey_isFirstMinBy _ hne, pyminKey_isFirstMinBy _ hne,
    pyminKey_isFirstMinBy _ hne, pyminKey_isFirstMinBy _ hne, pyminKey_isFirstMinBy _ hne⟩

/--
C3: the per-category blocks of the row are exactly `cat_block` in the order
of `C`, and for a category with zero annotations in this image the whole
ten-field block is the all-zero block — the embedding is total, so no field
is NaN, undefined, or an error.
-/
theorem claim_C3 {C : List ℤ} {fn : String} {A : List Annotation} {row : IndexRow}
    (_hC : List.Sorted (· < ·) C)
    (hrow : create_index_row C fn A = some row) :
    row.perCategory = C.map (cat_block A) ∧
      ∀ c ∈ C, (annotations_by_cid A c).length = 0 → cat_block A c = zero_cat_block := by
  obtain ⟨-, -, rfl⟩ := create_index_row_some hrow
  refine ⟨rfl, ?_⟩
  intro c _ hz
  simp [cat_block, hz, zero_cat_block]

/--
C6: with at least two nonempty categories, `Highest_TotalArea` is at least
`Lowest_TotalArea`, and both attributed categories are members of the
nonempty-category subset (`nonempty_category_ids`, the known categories
with at least one instance in this image), hence have a positive instance
count.
-/
theorem claim_C6 {C : List ℤ} {fn : String} {A : List Annotation} {row : IndexRow}
    (hrow : create_index_row C fn A = some row)
    (_h2 : 2 ≤ (nonempty_category_ids C A).length) :
    row.highest_TotalArea ≥ row.lowest_TotalArea ∧
      row.categoryOf_Highest_TotalArea ∈ nonempty_category_ids C A ∧
      row.categoryOf_Lowest_TotalArea ∈ nonempty_category_ids C A ∧
      0 < numInstancesOf A row.categoryOf_Highest_TotalArea ∧
      0 < numInstancesOf A row.categoryOf_Lowest_TotalArea := by
  obtain ⟨-, hne, rfl⟩ := create_index_row_some hrow
  have hmax := pymaxKey_isFirstMaxBy (totalAreaOf A) hne
  have hmin := pyminKey_isFirstMinBy (totalAreaOf A) hne
  have hmapne : (nonempty_category_ids C A).map (totalAreaOf A) ≠ [] := by
    intro h
    exact hne (List.map_eq_nil_iff.1 h)
  have hmemmax : (index_row_core C fn A).categoryOf_Highest_TotalArea ∈
      nonempty_category_ids C A := isFirstMaxBy_mem hmax
  have hmemmin : (index_row_core C fn A).categoryOf_Lowest_TotalArea ∈
      nonempty_category_ids C A := isFirstMinBy_mem hmin
  refine ⟨pymin_le_pymax hmapne, hmemmax, hmemmin, ?_, ?_⟩
  · have := List.mem_filter.1 hmemmax
    simpa [numInstancesOf] using this.2
  · have := List.mem_filter.1 hmemmin
    simpa [numInstancesOf] using this.2

/--
C7: `create_index_row` fails (raises, modelled as `none`) on an empty
annotation list, and succeeds (returns a row, reaching no raise point) on
any annotation list with at least one annotation when the non-empty sorted
category-id list contains every annotation's category id.
-/
theorem claim_C7 :
    (∀ (C : List ℤ) (fn : String), create_index_row C fn [] = none) ∧
      ∀ (C : List ℤ) (fn : String) (A : List Annotation),
        A ≠ [] → C ≠ [] → List.Sorted (· < ·) C → (∀ a ∈ A, a.category_id ∈ C) →
          (create_index_row C fn A).isSome = true := by
  constructor
  · intro C fn
    rw [create_index_row]
    simp
  · intro C fn A hA _ _ hcov
    exact create_index_row_isSome hA hcov

/--
C10: each `Highest_*`/`Lowest_*` extremal value equals the corresponding
statistic evaluated at the category named by the matching `CategoryOf_*`
field: the values and their attributions are mutually consistent.
-/
theorem claim_C10 {C : List ℤ} {fn : String} {A : List Annotation} {row : IndexRow}
    (_hC : List.Sorted (· < ·) C) (_hcov : ∀ a ∈ A, a.category_id ∈ C)
    (hrow : create_index_row C fn A = some row) :
    row.highest_NumInstances = numInstancesOf A row.categoryOf_Highest_NumInstances ∧
    row.highest_TotalArea = totalAreaOf A row.categoryOf_Highest_TotalArea ∧
    row.highest_MinArea = minAreaOf A row.categoryOf_Highest_MinArea ∧
    row.highest_MeanArea = meanAreaOf A row.categoryOf_Highest_MeanArea ∧
    row.highest_MaxArea = maxAreaOf A row.categoryOf_Highest_MaxArea ∧
    row.highest_StdevArea = stdevAreaOf A row.categoryOf_Highest_StdevArea ∧
    row.lowest_NumInstances = numInstancesOf A row.categoryOf_Lowest_NumInstances ∧
    row.lowest_TotalArea = totalAreaOf A row.categoryOf_Lowest_TotalArea ∧
    row.lowest_MinArea = minAreaOf A row.categoryOf_Lowest_MinArea ∧
    row.lowest_MeanArea = meanAreaOf A row.categoryOf_Lowest_MeanArea ∧
    row.lowest_MaxArea = maxAreaOf A row.categoryOf_Lowest_MaxArea ∧
    row.lowest_StdevArea = stdevAreaOf A row.categoryOf_Lowest_StdevArea := by
  obtain ⟨-, hne, rfl⟩ := create_index_row_some hrow
  exact ⟨pymax_map _ hne, pymax_map _ hne, pymax_map _ hne, pymax_map _ hne,
    pymax_map _ hne, pymax_map _ hne, pymin_map _ hne, pymin_map _ hne,
    pymin_map _ hne, pymin_map _ hne, pymin_map _ hne, pymin_map _ hne⟩

/-!
## `create_index.py`: `create_header_row`, and `index.py`: `get_classes`

The header is modelled as the Python `columns` list of column-name strings
(the final `sep.join(columns)` and the CSV re-parse on load are the
I/O layer, inverse to each other, and are not modelled).  Python's
`str(int)` decimal rendering is modelled by `natToChars`/`intToChars`,
Python's `str.split(sep)` by `pySplit`, and `int(str)` by `pyIntOfChars`
(restricted to an optional sign followed by digits; the inputs produced
here never contain the whitespace, `+` sign or `_` separators that
`int()` would also accept).
-/

def natToChars (n : ℕ) : List Char :=
  if _h : n < 10 then [Nat.digitChar n]
  else natToChars (n / 10) ++ [Nat.digitChar (n % 10)]
termination_by n
decreasing_by exact Nat.div_lt_self (by omega) (by omega)

def intToChars (i : ℤ) : List Char :=
  if i < 0 then '-' :: natToChars (-i).toNat else natToChars i.toNat

/-- Python `str(i)` for an int. -/
def intToString (i : ℤ) : String := String.mk (intToChars i)

/-- Python `s.split(sep)` for a one-character separator: splits at every
occurrence, keeping empty fragments (`''.split('_') == ['']`). -/
def pySplit (sep : Char) : List Char → List (List Char)
  | [] => [[]]
  | c :: r =>
    if c = sep then [] :: pySplit sep r
    else
      match pySplit sep r with
      | [] => [[c]]
      | g :: gs => (c :: g) :: gs

/-- Decimal value of a digit string (the accumulator loop of `int()`). -/
def charsToNat (l : List Char) : ℕ :=
  l.foldl (fun acc c => 10 * acc + (c.toNat - Char.toNat '0')) 0

/-- Python `int(s)` on an optional `'-'` sign followed by decimal digits;
`none` models the `ValueError` on malformed input. -/
def pyIntOfChars (l : List Char) : Option ℤ :=
  if l.head? = some '-' then
    if l.tail ≠ [] ∧ l.tail.all (·.isDigit) then some (-(charsToNat l.tail : ℤ)) else none
  else
    if l ≠ [] ∧ l.all (·.isDigit) then some ((charsToNat l : ℤ)) else none

/-- The 36 fixed leading column names of the index schema. -/
def fixed_columns : List String :=
  ["ImageID",
   "NumInstances",
   "NumCategories",
   "TotalArea",
   "MinArea",
   "MeanArea",
   "MaxArea",
   "StdevArea",
   "MeanX",
   "MeanY",
   "StdevX",
   "StdevY",
   "Highest_NumInstances",
   "Highest_TotalArea",
   "Highest_MinArea",
   "Highest_MeanArea",
   "Highest_MaxArea",
   "Highest_StdevArea",
   "Lowest_NumInstances",
   "Lowest_TotalArea",
   "Lowest_MinArea",
   "Lowest_MeanArea",
   "Lowest_MaxArea",
   "Lowest_StdevArea",
   "CategoryOf_Highest_NumInstances",
   "CategoryOf_Highest_TotalArea",
   "CategoryOf_Highest_MinArea",
   "CategoryOf_Highest_MeanArea",
   "CategoryOf_Highest_MaxArea",
   "CategoryOf_Highest_StdevArea",
   "CategoryOf_Lowest_NumInstances",
   "CategoryOf_Lowest_TotalArea",
   "CategoryOf_Lowest_MinArea",
   "CategoryOf_Lowest_MeanArea",
   "CategoryOf_Lowest_MaxArea",
   "CategoryOf_Lowest_StdevArea"]

/-- The ten per-category column names appended for one category id
(`f'NumInstances_{category_id}'` etc.). -/
def category_columns (cid : ℤ) : List String :=
  ["NumInstances_" ++ intToString cid,
   "TotalArea_" ++ intToString cid,
   "MinArea_" ++ intToString cid,
   "MeanArea_" ++ intToString cid,
   "MaxArea_" ++ intToString cid,
   "StdevArea_" ++ intToString cid,
   "MeanX_" ++ intToString cid,
   "MeanY_" ++ intToString cid,
   "StdevX_" ++ intToString cid,
   "StdevY_" ++ intToString cid]

/-- `create_header_row(category_ids)`: the fixed columns followed by the
ten per-category columns for each category id, in order. -/
def create_header_row (category_ids : List ℤ) : List String :=
  fixed_columns ++ category_ids.flatMap category_columns

/-!
## `index.py`: the `COCOIndex` query engine

The loaded pandas DataFrame is modelled as a `Table`: the column-name list
plus the ordered list of rows.  The query operations only ever read the
`ImageID` column and the `NumInstances_<c>` count columns, so a row is
modelled as its image id together with an association list from category
id to the value of its `NumInstances_<c>` column (`TRow.num`; a missing
column would be a pandas `KeyError`, modelled by the junk default `0` and
never exercised here since queries are over the table's own classes).
-/

structure TRow where
  imageID : String
  counts : List (ℤ × ℤ)
deriving DecidableEq, Inhabited

/-- `self._index[f'NumInstances_{class_id}']` evaluated at one row. -/
def TRow.num (r : TRow) (cid : ℤ) : ℤ := (r.counts.lookup cid).getD 0

structure Table where
  columns : List String
  rows : List TRow
deriving DecidableEq, Inhabited

/-- `COCOIndex._true_selector()`: the row predicate `ImageID != ''`.
On any table loaded from a builder-written CSV this selects every row
(pandas never parses a field as the empty string). -/
def true_selector (r : TRow) : Bool := r.imageID ≠ ""

/-- `COCOIndex._false_selector()`: the row predicate `ImageID == ''`. -/
def false_selector (r : TRow) : Bool := r.imageID = ""

/-- `COCOIndex.get_images()`: the set of `ImageID` values currently
present. -/
def get_images (t : Table) : Finset String :=
  (t.rows.map (·.imageID)).toFinset

/--
`COCOIndex.get_classes()`: the set of ids `int(c.split('_')[1])` over the
loaded table's column names `c` that contain the substring
`'NumInstances_'`.  Malformed candidates (which `int()` would reject) are
dropped rather than raised on; no column produced by `create_header_row`
is malformed.
-/
def get_classes (t : Table) : Finset ℤ :=
  ((t.columns.filter (fun c => decide ("NumInstances_".data <:+: c.data))).filterMap
    (fun c => pyIntOfChars ((pySplit '_' c.data).getD 1 []))).toFinset

/-- `COCOIndex.get_images_with_classes(classes)`: starting from the
all-false selector, OR in `NumInstances_<c> > 0` for each given class, then
collect the `ImageID`s of the selected rows. -/
def get_images_with_classes (classes : List ℤ) (t : Table) : Finset String :=
  let selector :=
    classes.foldl (fun sel cid => fun r => sel r || decide (0 < r.num cid)) false_selector
  ((t.rows.filter selector).map (·.imageID)).toFinset

/-- `COCOIndex.get_images_with_bounded_num_instances(classes, lower, upper)`:
starting from the all-true selector, AND in `lower <= NumInstances_<c>`
(when `lower` is given) and `NumInstances_<c> < upper` (when `upper` is
given) for each class, then collect the selected `ImageID`s. -/
def get_images_with_bounded_num_instances (classes : List ℤ)
    (lower upper : Option ℤ) (t : Table) : Finset String :=
  let selector :=
    classes.foldl
      (fun sel cid => fun r =>
        let s1 := match lower with
          | some lo => sel r && decide (lo ≤ r.num cid)
          | none => sel r
        match upper with
        | some up => s1 && decide (r.num cid < up)
        | none => s1)
      true_selector
  ((t.rows.filter selector).map (·.imageID)).toFinset

/-- `COCOIndex.keep(image_ids)`: retain only rows whose `ImageID` is in the
given set (`self._index[self._index.ImageID.isin(image_ids)]`). -/
def keep (image_ids : Finset String) (t : Table) : Table :=
  { t with rows := t.rows.filter (fun r => r.imageID ∈ image_ids) }

/-- `COCOIndex.remove(image_ids)`: drop rows whose `ImageID` is in the
given set (`self._index[~self._index.ImageID.isin(image_ids)]`). -/
def remove (image_ids : Finset String) (t : Table) : Table :=
  { t with rows := t.rows.filter (fun r => r.imageID ∉ image_ids) }

/-!
## `create_index.py`: the two index-building strategies

Both builders are modelled up to serialization: their output is the header
(column-name list) paired with the list of produced `IndexRow`s, in the
order the rows are written to the file.  A failing row computation aborts
the whole build (fail-fast), modelled by `Option` (the partially written
file left behind by the Python crash is not modelled).  The input mapping
`annotations_by_filename` is an insertion-ordered Python dict, modelled as
an association list.
-/

/-- `sorted([c['id'] for c in categories])`. -/
def sorted_category_ids (categories : List Category) : List ℤ :=
  (categories.map (·.id)).mergeSort (fun a b => a ≤ b)

/-- The row-writing loop of `create_index_sequentially`: compute and emit
one row per image in mapping order, aborting on the first failure. -/
def build_rows (category_ids : List ℤ) :
    List (String × List Annotation) → Option (List IndexRow)
  | [] => some []
  | (filename, anns) :: rest => do
    let row ← create_index_row category_ids filename anns
    let rows ← build_rows category_ids rest
    pure (row :: rows)

/-- `create_index_sequentially(output_path, categories,
annotations_by_filename)`: header row, then one row per image in mapping
order. -/
def create_index_sequentially (categories : List Category)
    (annotations_by_filename : List (String × List Annotation)) :
    Option (List String × List IndexRow) :=
  let category_ids := sorted_category_ids categories
  (build_rows category_ids annotations_by_filename).map
    (fun rows => (create_header_row category_ids, rows))

/-- `wrapped_create_index_row(args)`: the worker entry point unpacking one
job tuple `(category_ids, filename, annotations)`. -/
def wrapped_create_index_row (args : List ℤ × String × List Annotation) :
    Option IndexRow :=
  create_index_row args.1 args.2.1 args.2.2

/-- The result-collection loop of `create_index_multiprocessing`:
`pool.imap` yields one result per job *in job order* (unlike
`imap_unordered`), and a worker failure propagates to the parent,
aborting the build. -/
def collect_jobs : List (List ℤ × String × List Annotation) → Option (List IndexRow)
  | [] => some []
  | job :: rest => do
    let row ← wrapped_create_index_row job
    let rows ← collect_jobs rest
    pure (row :: rows)

/-- `create_index_multiprocessing(output_path, categories,
annotations_by_filename)`: header row, then the rows collected from the
worker pool over the job list built in mapping order. -/
def create_index_multiprocessing (categories : List Category)
    (annotations_by_filename : List (String × List Annotation)) :
    Option (List String × List IndexRow) :=
  let category_ids := sorted_category_ids categories
  let jobs := annotations_by_filename.map
    (fun fa => (category_ids, fa.1, fa.2))
  (collect_jobs jobs).map
    (fun rows => (create_header_row category_ids, rows))

theorem collect_jobs_eq_build_rows (category_ids : List ℤ) :
    ∀ abf : List (String × List Annotation),
      collect_jobs (abf.map (fun fa => (category_ids, fa.1, fa.2))) =
        build_rows category_ids abf := by
  intro abf
  induction abf with
  | nil => rfl
  | cons fa rest ih =>
    obtain ⟨filename, anns⟩ := fa
    rw [List.map_cons, collect_jobs, build_rows, ih]
    rfl

theorem build_rows_isSome (category_ids : List ℤ) :
    ∀ abf : List (String × List Annotation),
      (∀ p ∈ abf, p.2 ≠ []) →
      (∀ p ∈ abf, ∀ a ∈ p.2, a.category_id ∈ category_ids) →
      ∃ rows, build_rows category_ids abf = some rows := by
  intro abf
  induction abf with
  | nil => exact fun _ _ => ⟨[], rfl⟩
  | cons fa rest ih =>
    intro h1 h2
    obtain ⟨filename, anns⟩ := fa
    obtain ⟨rows, hrows⟩ := ih (fun p hp => h1 p (List.mem_cons_of_mem _ hp))
      (fun p hp => h2 p (List.mem_cons_of_mem _ hp))
    have hsome : (create_index_row category_ids filename anns).isSome = true :=
      create_index_row_isSome (h1 ⟨filename, anns⟩ (by simp)) (h2 ⟨filename, anns⟩ (by simp))
    obtain ⟨row, hrow⟩ := Option.isSome_iff_exists.1 hsome
    exact ⟨row :: rows, by rw [build_rows, hrow, hrows]; rfl⟩

/--
C8: on any input where every image has at least one annotation and every
annotation's category id comes from the given categories, the sequential
and the multiprocessing builder both succeed and write the same header and
the same rows up to permutation (here: the very same row list, since
`pool.imap` preserves job order and the jobs are built in mapping order).
-/
theorem claim_C8 (categories : List Category)
    (abf : List (String × List Annotation))
    (h1 : ∀ p ∈ abf, p.2 ≠ [])
    (h2 : ∀ p ∈ abf, ∀ a ∈ p.2, a.category_id ∈ categories.map (·.id)) :
    ∃ hdr rows₁ rows₂,
      create_index_sequentially categories abf = some (hdr, rows₁) ∧
      create_index_multiprocessing categories abf = some (hdr, rows₂) ∧
      rows₁.Perm rows₂ := by
  have h2' : ∀ p ∈ abf, ∀ a ∈ p.2, a.category_id ∈ sorted_category_ids categories := by
    intro p hp a ha
    rw [sorted_category_ids, List.mem_mergeSort]
    exact h2 p hp a ha
  obtain ⟨rows, hrows⟩ := build_rows_isSome (sorted_category_ids categories) abf h1 h2'
  refine ⟨create_header_row (sorted_category_ids categories), rows, rows, ?_, ?_, List.Perm.refl _⟩
  · rw [create_index_sequentially, hrows]
    rfl
  · rw [create_index_multiprocessing, collect_jobs_eq_build_rows, hrows]
    rfl

/--
C4: on a loaded table (whose `ImageID` fields are never the empty string —
pandas parses an empty CSV field as NaN, not `''`, so the dummy selectors
`ImageID == ''` / `ImageID != ''` are all-false resp. all-true),
`get_images_with_classes([])` is the empty set and
`get_images_with_bounded_num_instances([], lower, upper)` is the full
current image-id set, whatever the bounds.
-/
theorem claim_C4 (t : Table) (hload : ∀ r ∈ t.rows, r.imageID ≠ "")
    (lower upper : Option ℤ) :
    get_images_with_classes [] t = ∅ ∧
      get_images_with_bounded_num_instances [] lower upper t = get_images t := by
  constructor
  · rw [get_images_with_classes]
    have : t.rows.filter false_selector = [] := by
      rw [List.filter_eq_nil_iff]
      intro r hr
      simp [false_selector, hload r hr]
    simp only [List.foldl_nil, this, List.map_nil, List.toFinset_nil]
  · rw [get_images_with_bounded_num_instances, get_images]
    have : t.rows.filter true_selector = t.rows := by
      rw [List.filter_eq_self]
      intro r hr
      simp [true_selector, hload r hr]
    simp only [List.foldl_nil, this]

/--
C5: `keep(S)` followed by `get_images()` returns exactly `S` intersected
with the previous `get_images()`, and `remove(S)` followed by
`get_images()` returns exactly the previous `get_images()` minus `S`.
-/
theorem claim_C5 (t : Table) (S : Finset String) :
    get_images (keep S t) = S ∩ get_images t ∧
      get_images (remove S t) = get_images t \ S := by
  constructor
  · ext x
    simp only [get_images, keep, List.mem_toFinset, List.mem_map, List.mem_filter,
      Finset.mem_inter, decide_eq_true_eq]
    constructor
    · rintro ⟨r, ⟨hr, hrS⟩, rfl⟩
      exact ⟨hrS, ⟨r, hr, rfl⟩⟩
    · rintro ⟨hxS, ⟨r, hr, rfl⟩⟩
      exact ⟨r, ⟨hr, hxS⟩, rfl⟩
  · ext x
    simp only [get_images, remove, List.mem_toFinset, List.mem_map, List.mem_filter,
      Finset.mem_sdiff, decide_eq_true_eq]
    constructor
    · rintro ⟨r, ⟨hr, hrS⟩, rfl⟩
      exact ⟨⟨r, hr, rfl⟩, hrS⟩
    · rintro ⟨⟨r, hr, rfl⟩, hxS⟩
      exact ⟨r, ⟨hr, hxS⟩, rfl⟩

/-!
## C9 supporting lemmas: decimal printing/parsing round trip
-/

theorem natToChars_ne_nil (n : ℕ) : natToChars n ≠ [] := by
  rw [natToChars]
  split
  · simp
  · simp

theorem natToChars_digits (n : ℕ) : ∀ c ∈ natToChars n, c.isDigit = true := by
  induction n using natToChars.induct with
  | case1 n h =>
    rw [natToChars, dif_pos h]
    intro c hc
    rw [List.mem_singleton] at hc
    subst hc
    exact (by decide : ∀ m < 10, (Nat.digitChar m).isDigit = true) n h
  | case2 n h ih =>
    rw [natToChars, dif_neg h]
    intro c hc
    rcases List.mem_append.1 hc with hc | hc
    · exact ih c hc
    · rw [List.mem_singleton] at hc
      subst hc
      exact (by decide : ∀ m < 10, (Nat.digitChar m).isDigit = true) _ (Nat.mod_lt _ (by omega))

theorem charsToNat_natToChars_aux (n : ℕ) : ∀ acc : ℕ,
    List.foldl (fun acc c => 10 * acc + (c.toNat - Char.toNat '0')) acc (natToChars n)
      = acc * 10 ^ (natToChars n).length + n := by
  induction n using natToChars.induct with
  | case1 n h =>
    intro acc
    rw [natToChars, dif_pos h]
    have hd : (Nat.digitChar n).toNat - Char.toNat '0' = n :=
      (by decide : ∀ m < 10, (Nat.digitChar m).toNat - Char.toNat '0' = m) n h
    simp only [List.foldl_cons, List.foldl_nil, List.length_singleton, pow_one, hd]
    omega
  | case2 n h ih =>
    intro acc
    rw [natToChars, dif_neg h]
    rw [List.foldl_append, ih acc]
    have hd : (Nat.digitChar (n % 10)).toNat - Char.toNat '0' = n % 10 :=
      (by decide : ∀ m < 10, (Nat.digitChar m).toNat - Char.toNat '0' = m) _
        (Nat.mod_lt _ (by omega))
    simp only [List.foldl_cons, List.foldl_nil, hd, List.length_append,
      List.length_singleton, pow_succ]
    generalize (10 : ℕ) ^ (natToChars (n / 10)).length = P
    have : n % 10 + 10 * (n / 10) = n := Nat.mod_add_div n 10
    ring_nf
    omega

/-- Parsing inverts printing for naturals. -/
theorem charsToNat_natToChars (n : ℕ) : charsToNat (natToChars n) = n := by
  rw [charsToNat, charsToNat_natToChars_aux n 0]
  simp

/-- Every character of a printed integer is the sign or a digit. -/
theorem intToChars_chars (i : ℤ) : ∀ c ∈ intToChars i, c = '-' ∨ c.isDigit = true := by
  intro c hc
  rw [intToChars] at hc
  split_ifs at hc with hi
  · rcases List.mem_cons.1 hc with hc | hc
    · exact Or.inl hc
    · exact Or.inr (natToChars_digits _ c hc)
  · exact Or.inr (natToChars_digits _ c hc)

theorem underscore_not_mem_intToChars (i : ℤ) : '_' ∉ intToChars i := by
  intro h
  rcases intToChars_chars i '_' h with h1 | h1
  · exact absurd h1 (by decide)
  · exact absurd h1 (by decide)

theorem u_not_mem_intToChars (i : ℤ) : 'u' ∉ intToChars i := by
  intro h
  rcases intToChars_chars i 'u' h with h1 | h1
  · exact absurd h1 (by decide)
  · exact absurd h1 (by decide)

/-- Python `int()` inverts Python `str()` on integers. -/
theorem pyIntOfChars_intToChars (i : ℤ) : pyIntOfChars (intToChars i) = some i := by
  rw [intToChars]
  split_ifs with hi
  · rw [pyIntOfChars]
    simp only [List.head?_cons, List.tail_cons]
    rw [if_pos trivial, if_pos ⟨natToChars_ne_nil _, by
      rw [List.all_eq_true]
      exact natToChars_digits (-i).toNat⟩]
    rw [charsToNat_natToChars]
    have : (((-i).toNat : ℤ)) = -i := Int.toNat_of_nonneg (by omega)
    rw [this]
    simp
  · have hH : (natToChars i.toNat).head? ≠ some '-' := by
      obtain ⟨c, r, hcr⟩ := List.exists_cons_of_ne_nil (natToChars_ne_nil i.toNat)
      rw [hcr, List.head?_cons]
      intro h
      have hc : c = '-' := by simpa using h
      have hd := natToChars_digits i.toNat c (by rw [hcr]; simp)
      rw [hc] at hd
      exact absurd hd (by decide)
    rw [pyIntOfChars, if_neg hH, if_pos ⟨natToChars_ne_nil _, by
      rw [List.all_eq_true]
      exact natToChars_digits i.toNat⟩]
    rw [charsToNat_natToChars, Int.toNat_of_nonneg (by omega)]

/-!
## C9 supporting lemmas: `pySplit`
-/

theorem pySplit_of_not_mem {sep : Char} : ∀ {l : List Char}, sep ∉ l → pySplit sep l = [l] := by
  intro l
  induction l with
  | nil =>
    intro _
    rfl
  | cons c r ih =>
    intro h
    have hc : ¬ c = sep := fun e => h (by simp [e])
    rw [pySplit, if_neg hc, ih (fun hm => h (List.mem_cons_of_mem _ hm))]

theorem pySplit_append {sep : Char} : ∀ {l₁ : List Char} (l₂ : List Char), sep ∉ l₁ →
    pySplit sep (l₁ ++ sep :: l₂) = l₁ :: pySplit sep l₂ := by
  intro l₁
  induction l₁ with
  | nil =>
    intro l₂ _
    rw [List.nil_append, pySplit, if_pos rfl]
  | cons c r ih =>
    intro l₂ h
    have hc : ¬ c = sep := fun e => h (by simp [e])
    rw [List.cons_append, pySplit, if_neg hc, ih l₂ (fun hm => h (List.mem_cons_of_mem _ hm))]

/-!
## C9 supporting lemmas: which columns contain `'NumInstances_'`
-/

/-- The `NumInstances_<cid>` column contains `'NumInstances_'` (as its
prefix). -/
theorem numInstances_infix (cid : ℤ) :
    "NumInstances_".data <:+: ("NumInstances_" ++ intToString cid).data := by
  rw [String.data_append]
  exact (List.prefix_append _ _).isInfix

/-- A per-category column built from a prefix without the letter `'u'`
cannot contain `'NumInstances_'` (which contains `'u'`), since the id part
is all sign/digits. -/
theorem not_numInstances_infix (s : String) (hu : 'u' ∉ s.data) (cid : ℤ) :
    ¬ "NumInstances_".data <:+: (s ++ intToString cid).data := by
  intro h
  have hmem : 'u' ∈ (s ++ intToString cid).data := h.subset (by decide)
  rw [String.data_append] at hmem
  rcases List.mem_append.1 hmem with hm | hm
  · exact hu hm
  · have : 'u' ∈ intToChars cid := by simpa [intToString] using hm
    exact u_not_mem_intToChars cid this

/-- Of the ten per-category columns, exactly the `NumInstances_<cid>` one
survives the `'NumInstances_' in c` filter. -/
theorem filter_category_columns (cid : ℤ) :
    (category_columns cid).filter (fun c => decide ("NumInstances_".data <:+: c.data)) =
      ["NumInstances_" ++ intToString cid] := by
  have h0 := numInstances_infix cid
  have h1 := not_numInstances_infix "TotalArea_" (by decide) cid
  have h2 := not_numInstances_infix "MinArea_" (by decide) cid
  have h3 := not_numInstances_infix "MeanArea_" (by decide) cid
  have h4 := not_numInstances_infix "MaxArea_" (by decide) cid
  have h5 := not_numInstances_infix "StdevArea_" (by decide) cid
  have h6 := not_numInstances_infix "MeanX_" (by decide) cid
  have h7 := not_numInstances_infix "MeanY_" (by decide) cid
  have h8 := not_numInstances_infix "StdevX_" (by decide) cid
  have h9 := not_numInstances_infix "StdevY_" (by decide) cid
  simp at h0 h1 h2 h3 h4 h5 h6 h7 h8 h9
  simp [category_columns, List.filter_cons, h0, h1, h2, h3, h4, h5, h6, h7, h8, h9]

/-- Parsing the id back out of the `NumInstances_<cid>` column name. -/
theorem parse_numInstances_col (cid : ℤ) :
    pyIntOfChars ((pySplit '_' ("NumInstances_" ++ intToString cid).data).getD 1 []) =
      some cid := by
  have hdata : ("NumInstances_" ++ intToString cid).data =
      "NumInstances".data ++ '_' :: intToChars cid := by
    rw [String.data_append]
    rfl
  rw [hdata, pySplit_append _ (by decide),
    pySplit_of_not_mem (underscore_not_mem_intToChars cid)]
  exact pyIntOfChars_intToChars cid

theorem scan_category_columns : ∀ C : List ℤ,
    (((C.flatMap category_columns).filter
        (fun c => decide ("NumInstances_".data <:+: c.data))).filterMap
      (fun c => pyIntOfChars ((pySplit '_' c.data).getD 1 []))) = C := by
  intro C
  induction C with
  | nil => rfl
  | cons cid C' ih =>
    rw [List.flatMap_cons, List.filter_append, filter_category_columns,
      List.filterMap_append, ih, List.filterMap_cons, parse_numInstances_col cid,
      List.filterMap_nil]
    rfl

/--
C9: the category-id set is recoverable from the column names alone: loading
a table whose header row was produced by `create_header_row(C)` (with any
row contents) and calling `get_classes` returns exactly the set of ids in
`C`.
-/
theorem claim_C9 (C : List ℤ) (rows : List TRow) :
    get_classes ⟨create_header_row C, rows⟩ = C.toFinset := by
  rw [get_classes]
  show ((((fixed_columns ++ C.flatMap category_columns).filter
      (fun c => decide ("NumInstances_".data <:+: c.data))).filterMap
        (fun c => pyIntOfChars ((pySplit '_' c.data).getD 1 []))).toFinset) = C.toFinset
  rw [List.filter_append]
  have hfixed : fixed_columns.filter
      (fun c => decide ("NumInstances_".data <:+: c.data)) = [] := by decide
  rw [hfixed, List.nil_append, scan_category_columns]

/-!
## Concrete witness data

A three-category index (`[1, 2, 3]`) and one image with two instances of
category 1 and one of category 2 (category 3 empty).
-/

def wC : List ℤ := [1, 2, 3]

def wA : List Annotation :=
  [{ category_id := 1, area := 4, bbox_x := 0, bbox_y := 0, bbox_w := 2, bbox_h := 2 },
   { category_id := 1, area := 2, bbox_x := 1, bbox_y := 3, bbox_w := 1, bbox_h := 2 },
   { category_id := 2, area := 6, bbox_x := 5, bbox_y := 1, bbox_w := 2, bbox_h := 3 }]

def wRow : IndexRow := (create_index_row wC "img1.png" wA).get (by decide)

theorem wRow_eq : create_index_row wC "img1.png" wA = some wRow := by
  rw [wRow]
  exact (Option.some_get _).symm

/-- Witness for C1 at the concrete three-instance image. -/
theorem claim_C1_witness :
    wRow.numInstances = wA.length ∧
      (wRow.perCategory.map (·.numInstances)).sum = wA.length :=
  claim_C1 (by decide) (by decide) (by decide) wRow_eq

/-- Witness for C2 at the concrete three-instance image. -/
theorem claim_C2_witness :
    IsFirstMaxBy (numInstancesOf wA) (nonempty_category_ids wC wA) wRow.categoryOf_Highest_NumInstances ∧
    IsFirstMaxBy (totalAreaOf wA) (nonempty_category_ids wC wA) wRow.categoryOf_Highest_TotalArea ∧
    IsFirstMaxBy (minAreaOf wA) (nonempty_category_ids wC wA) wRow.categoryOf_Highest_MinArea ∧
    IsFirstMaxBy (meanAreaOf wA) (nonempty_category_ids wC wA) wRow.categoryOf_Highest_MeanArea ∧
    IsFirstMaxBy (maxAreaOf wA) (nonempty_category_ids wC wA) wRow.categoryOf_Highest_MaxArea ∧
    IsFirstMaxBy (stdevAreaOf wA) (nonempty_category_ids wC wA) wRow.categoryOf_Highest_StdevArea ∧
    IsFirstMinBy (numInstancesOf wA) (nonempty_category_ids wC wA) wRow.categoryOf_Lowest_NumInstances ∧
    IsFirstMinBy (totalAreaOf wA) (nonempty_category_ids wC wA) wRow.categoryOf_Lowest_TotalArea ∧
    IsFirstMinBy (minAreaOf wA) (nonempty_category_ids wC wA) wRow.categoryOf_Lowest_MinArea ∧
    IsFirstMinBy (meanAreaOf wA) (nonempty_category_ids wC wA) wRow.categoryOf_Lowest_MeanArea ∧
    IsFirstMinBy (maxAreaOf wA) (nonempty_category_ids wC wA) wRow.categoryOf_Lowest_MaxArea ∧
    IsFirstMinBy (stdevAreaOf wA) (nonempty_category_ids wC wA) wRow.categoryOf_Lowest_StdevArea :=
  claim_C2 (by decide) (by decide) wRow_eq

/-- Witness for C3 at the concrete image (category 3 is empty there). -/
theorem claim_C3_witness :
    wRow.perCategory = wC.map (cat_block wA) ∧
      ∀ c ∈ wC, (annotations_by_cid wA c).length = 0 → cat_block wA c = zero_cat_block :=
  claim_C3 (by decide) wRow_eq

/-- Witness for C6 at the concrete image (two nonempty categories). -/
theorem claim_C6_witness :
    wRow.highest_TotalArea ≥ wRow.lowest_TotalArea ∧
      wRow.categoryOf_Highest_TotalArea ∈ nonempty_category_ids wC wA ∧
      wRow.categoryOf_Lowest_TotalArea ∈ nonempty_category_ids wC wA ∧
      0 < numInstancesOf wA wRow.categoryOf_Highest_TotalArea ∧
      0 < numInstancesOf wA wRow.categoryOf_Lowest_TotalArea :=
  claim_C6 wRow_eq (by decide)

/-- Witness for C7: the empty annotation list fails, the concrete
three-instance image succeeds. -/
theorem claim_C7_witness :
    create_index_row wC "img1.png" [] = none ∧
      (create_index_row wC "img1.png" wA).isSome = true :=
  ⟨claim_C7.1 wC "img1.png",
    claim_C7.2 wC "img1.png" wA (by decide) (by decide) (by decide) (by decide)⟩

/-- Witness for C10 at the concrete three-instance image. -/
theorem claim_C10_witness :
    wRow.highest_NumInstances = numInstancesOf wA wRow.categoryOf_Highest_NumInstances ∧
    wRow.highest_TotalArea = totalAreaOf wA wRow.categoryOf_Highest_TotalArea ∧
    wRow.highest_MinArea = minAreaOf wA wRow.categoryOf_Highest_MinArea ∧
    wRow.highest_MeanArea = meanAreaOf wA wRow.categoryOf_Highest_MeanArea ∧
    wRow.highest_MaxArea = maxAreaOf wA wRow.categoryOf_Highest_MaxArea ∧
    wRow.highest_StdevArea = stdevAreaOf wA wRow.categoryOf_Highest_StdevArea ∧
    wRow.lowest_NumInstances = numInstancesOf wA wRow.categoryOf_Lowest_NumInstances ∧
    wRow.lowest_TotalArea = totalAreaOf wA wRow.categoryOf_Lowest_TotalArea ∧
    wRow.lowest_MinArea = minAreaOf wA wRow.categoryOf_Lowest_MinArea ∧
    wRow.lowest_MeanArea = meanAreaOf wA wRow.categoryOf_Lowest_MeanArea ∧
    wRow.lowest_MaxArea = maxAreaOf wA wRow.categoryOf_Lowest_MaxArea ∧
    wRow.lowest_StdevArea = stdevAreaOf wA wRow.categoryOf_Lowest_StdevArea :=
  claim_C10 (by decide) (by decide) wRow_eq

def wCats : List Category := [⟨1, "car"⟩, ⟨2, "tree"⟩, ⟨3, "sign"⟩]

def wABF : List (String × List Annotation) := [("img1.png", wA)]

/-- Witness for C8 with one concrete image and three categories. -/
theorem claim_C8_witness :
    ∃ hdr rows₁ rows₂,
      create_index_sequentially wCats wABF = some (hdr, rows₁) ∧
      create_index_multiprocessing wCats wABF = some (hdr, rows₂) ∧
      rows₁.Perm rows₂ :=
  claim_C8 wCats wABF (by decide) (by decide)

def wTable : Table :=
  { columns := create_header_row wC
    rows := [{ imageID := "img1", counts := [(1, 2), (2, 1), (3, 0)] },
             { imageID := "img2", counts := [(1, 0), (2, 0), (3, 5)] }] }

/-- Witness for C4 on a concrete two-row loaded table, with a lower bound
present and no upper bound. -/
theorem claim_C4_witness :
    get_images_with_classes [] wTable = ∅ ∧
      get_images_with_bounded_num_instances [] (some 1) none wTable = get_images wTable :=
  claim_C4 wTable (by decide) (some 1) none
